import Mathlib

/-!
Verification development for the IFML record-store core: a shallow embedding
of the tabular reconciliation functions in `logger_tab.py`, `audit_tab.py`
and `species_db.py` (header normalization, record-id assignment, species
resolution, audit aggregation, log read/backfill, save/edit flows), together
with theorems settling the specification claims about them.

Strings are modelled over the ASCII fragment: Python `str.strip` /
whitespace splitting are modelled with the ASCII whitespace characters,
`str.lower` with `String.toLower`.
-/

namespace IFML

/-- ASCII whitespace characters, as stripped by Python `str.strip()` and
matched by the regex class backslash-s. -/
def isPySpace (c : Char) : Bool :=
  c = ' ' || c = '\t' || c = '\n' || c = '\r' || c = '\x0b' || c = '\x0c'

/-- Python `str.strip()`: drop leading and trailing whitespace. -/
def pyStrip (s : String) : String :=
  ⟨List.rdropWhile isPySpace (s.data.dropWhile isPySpace)⟩

/-- Python `str.lower()` on the ASCII fragment: lowercase every character. -/
def pyLower (s : String) : String :=
  ⟨s.data.map Char.toLower⟩

/-- One pass of the regex substitution replacing each maximal whitespace run
with a single underscore (`re.sub` of a whitespace-run pattern with `"_"`),
from `safe_slug` in `logger_tab.py`.  The Bool argument records whether the
previous character was part of a whitespace run. -/
def collapseWsGo : Bool → List Char → List Char
  | _, [] => []
  | prevWs, c :: rest =>
    if isPySpace c then
      if prevWs then collapseWsGo true rest
      else '_' :: collapseWsGo true rest
    else c :: collapseWsGo false rest

/-- Characters kept by the `[a-z0-9_]` class in `safe_slug`. -/
def isSlugChar (c : Char) : Bool :=
  ('a' ≤ c && c ≤ 'z') || ('0' ≤ c && c ≤ '9') || c = '_'

/-- `safe_slug` from `logger_tab.py`: strip, lowercase, whitespace runs to a
single underscore, then delete every character outside `[a-z0-9_]`. -/
def safe_slug (s : String) : String :=
  ⟨(collapseWsGo false (pyLower (pyStrip s)).data).filter isSlugChar⟩

/-- Value of a list of decimal digit characters (most significant first). -/
def digitsToNat (ds : List Char) : Nat :=
  ds.foldl (fun n c => n * 10 + (c.toNat - '0'.toNat)) 0

/-- The regex search for a trailing underscore-digits suffix used by
`next_record_id`: `some n` when the id ends in an underscore followed by a
nonempty digit run with value `n`, else `none`. -/
def trailingSeqNum (rid : String) : Option Nat :=
  let rev := rid.data.reverse
  let ds := rev.takeWhile Char.isDigit
  if ds.isEmpty then none
  else
    match rev.dropWhile Char.isDigit with
    | '_' :: _ => some (digitsToNat ds.reverse)
    | _ => none

/-- Python format `{:02d}` for the nonnegative sequence numbers used here:
zero-pad to at least two digits. -/
def pad2 (n : Nat) : String :=
  if n < 10 then "0" ++ toString n else toString n

/-- One row of the photo log (`LOG_COLUMNS` in `logger_tab.py`).  The six
boolean flags are `Bool` here; the raw-cell boolean coercion applied by the
filtering/audit/import code paths is modelled separately on `String` cells. -/
structure LogRow where
  timestamp : String
  recordId : String
  genus : String
  species : String
  commonName : String
  rtype : String
  rgroup : String
  photoPath : String
  hasLeaf : Bool
  hasBark : Bool
  hasTree : Bool
  hasOther : Bool
  scanned : Bool
  archived : Bool
  notes : String
deriving DecidableEq, Repr

/-- Maximum trailing sequence number among the record ids of `rows`, 0 when
none match (the loop body of `next_record_id`). -/
def maxSeq (rows : List LogRow) : Nat :=
  rows.foldl
    (fun n r =>
      match trailingSeqNum r.recordId with
      | some k => max n k
      | none => n) 0

/-- `next_record_id` from `logger_tab.py`, with the log rows (read from the
log file in the source) passed explicitly: strip both inputs, restrict to
rows whose Genus and Species equal the stripped inputs, take the maximum
trailing sequence number `n`, and return `slug_slug_(n+1)` zero-padded. -/
def next_record_id (genus species : String) (rows : List LogRow) : String :=
  let g := pyStrip genus
  let sp := pyStrip species
  let subset := rows.filter (fun r => r.genus == g && r.species == sp)
  safe_slug g ++ "_" ++ safe_slug sp ++ "_" ++ pad2 (maxSeq subset + 1)

/-- The slug operation exactly as claim C1 words it (lowercase, whitespace
runs to one underscore, strip characters outside `[a-z0-9_]`) — with no
initial whitespace trimming.  Used to compare the claim against the code. -/
def claimSlug (s : String) : String :=
  ⟨(collapseWsGo false (pyLower s).data).filter isSlugChar⟩

/-- `next_record_id` exactly as claim C1 words it: the subset is the rows
whose Genus and Species equal the raw (untrimmed) inputs, and the slugs are
`claimSlug` of the raw inputs. -/
def next_record_id_claimed (genus species : String) (rows : List LogRow) : String :=
  let subset := rows.filter (fun r => r.genus == genus && r.species == species)
  claimSlug genus ++ "_" ++ claimSlug species ++ "_" ++ pad2 (maxSeq subset + 1)

/-- The amended claim C1: as C1, but each slug is computed from the
whitespace-trimmed input, and the subset is matched against the
whitespace-trimmed inputs. -/
def next_record_id_amendedSpec (genus species : String) (rows : List LogRow) : String :=
  let subset := rows.filter (fun r => r.genus == pyStrip genus && r.species == pyStrip species)
  claimSlug (pyStrip genus) ++ "_" ++ claimSlug (pyStrip species) ++ "_" ++ pad2 (maxSeq subset + 1)

/-- A sample log row for genus Fagus, species grandifolia. -/
def fagusRow (rid : String) : LogRow :=
  { timestamp := "2024-01-01 10:00", recordId := rid, genus := "Fagus",
    species := "grandifolia", commonName := "American Beech",
    rtype := "Deciduous", rgroup := "Beeches", photoPath := "",
    hasLeaf := false, hasBark := false, hasTree := false, hasOther := false,
    scanned := false, archived := false, notes := "" }

/-- Python strip is idempotent. -/
theorem pyStrip_idem (s : String) : pyStrip (pyStrip s) = pyStrip s := by
  show String.mk _ = String.mk _
  congr 1
  show List.rdropWhile isPySpace (List.dropWhile isPySpace
        (List.rdropWhile isPySpace (List.dropWhile isPySpace s.data)))
      = List.rdropWhile isPySpace (List.dropWhile isPySpace s.data)
  set p := isPySpace
  set l := s.data
  have hhead : List.dropWhile p (List.rdropWhile p (List.dropWhile p l))
      = List.rdropWhile p (List.dropWhile p l) := by
    rcases h : List.rdropWhile p (List.dropWhile p l) with _ | ⟨a, k⟩
    · simp
    · rw [List.dropWhile_cons]
      have hpre := List.rdropWhile_prefix p (List.dropWhile p l)
      rw [h] at hpre
      obtain ⟨t, ht⟩ := hpre
      have hm : List.dropWhile p l = a :: (k ++ t) := by rw [← ht]; simp
      have hne : List.dropWhile p l ≠ [] := by rw [hm]; simp
      have ha := List.head_dropWhile_not p l hne
      have h2 : (List.dropWhile p l).head? = some a := by rw [hm]; rfl
      rw [List.head?_eq_head hne] at h2
      rw [Option.some.injEq] at h2
      rw [h2] at ha
      simp [ha]
  rw [hhead, List.rdropWhile_idempotent]

/-- On an already-stripped input, `safe_slug` agrees with the claim-worded
slug (which does not strip). -/
theorem safe_slug_pyStrip (s : String) : safe_slug (pyStrip s) = claimSlug (pyStrip s) := by
  unfold safe_slug claimSlug
  rw [pyStrip_idem]

/-- Claim C1, counterexample.  For genus input with leading whitespace
(genus of a space before Fagus, species grandifolia, one existing row with
Genus Fagus and id fagus_grandifolia_05), the code strips the inputs before
slug and subset matching and returns fagus_grandifolia_06, whereas the claim
as stated (slug without trimming, rows matched against the raw input) yields
an underscore-prefixed id with sequence number 01. -/
theorem C1_counterexample :
    next_record_id " Fagus" "grandifolia" [fagusRow "fagus_grandifolia_05"]
        = "fagus_grandifolia_06" ∧
    next_record_id_claimed " Fagus" "grandifolia" [fagusRow "fagus_grandifolia_05"]
        = "_fagus_grandifolia_01" ∧
    next_record_id " Fagus" "grandifolia" [fagusRow "fagus_grandifolia_05"] ≠
      next_record_id_claimed " Fagus" "grandifolia" [fagusRow "fagus_grandifolia_05"] :=
  ⟨by decide, by decide, by decide⟩

/-- Claim C1 (amended): for every genus and species input, `next_record_id`
returns the slug-slug-sequence id where each slug is the whitespace-trimmed
input lowercased with whitespace runs replaced by a single underscore and
characters outside the class a-z 0-9 underscore stripped, the sequence
number is one more than the maximum trailing underscore-digits suffix among
record ids of rows whose Genus and Species exactly equal the
whitespace-trimmed inputs (0 if none), zero-padded to 2 digits; and because
the maximum is recomputed from the current rows, deleting the max-numbered
record makes the next call return that freed number again (concrete reuse
instance: ids 01 and 02 give 03; after deleting 02, the next call gives 02
again). -/
theorem C1_next_record_id_amended :
    (∀ genus species rows,
        next_record_id genus species rows = next_record_id_amendedSpec genus species rows) ∧
    next_record_id "Fagus" "grandifolia"
        [fagusRow "fagus_grandifolia_01", fagusRow "fagus_grandifolia_02"]
        = "fagus_grandifolia_03" ∧
    next_record_id "Fagus" "grandifolia" [fagusRow "fagus_grandifolia_01"]
        = "fagus_grandifolia_02" := by
  refine ⟨fun genus species rows => ?_, by decide, by decide⟩
  simp only [next_record_id, next_record_id_amendedSpec, safe_slug_pyStrip]

/-- Cell-to-boolean coercion used by `filtered_df` in `logger_tab.py`
(lowercase then membership in the true-like set). -/
def filtered_df_bool (s : String) : Bool :=
  pyLower s == "true" || pyLower s == "1" || pyLower s == "yes"

/-- Cell-to-boolean coercion used by `compute_audit`'s normalization loop in
`audit_tab.py`. -/
def audit_bool (s : String) : Bool :=
  pyLower s == "true" || pyLower s == "1" || pyLower s == "yes"

/-- Cell-to-boolean coercion used by `import_csv` in `logger_tab.py`:
lowercase then membership in the four-element true-like set, which also
contains the bare letter y. -/
def import_csv_bool (s : String) : Bool :=
  pyLower s == "1" || pyLower s == "true" || pyLower s == "yes" || pyLower s == "y"

/-- The boolean coercion rule exactly as the specification words it: true
iff, case-insensitively, the cell equals one of true, 1, yes. -/
def spec_bool (s : String) : Bool :=
  pyLower s == "true" || pyLower s == "1" || pyLower s == "yes"

/-- Claim C2, counterexample.  The CSV-import coercion maps the cell y to true,
although y is not (case-insensitively) one of true, 1, yes — so the single
coercion rule stated by the claim does not hold at the CSV-import site. -/
theorem C2_counterexample : import_csv_bool "y" = true ∧ spec_bool "y" = false :=
  ⟨by decide, by decide⟩

/-- Claim C2 (amended): the filtering and audit-aggregation coercions map a cell
to true exactly when, case-insensitively, it equals one of true, 1, yes; the
CSV-import coercion additionally maps the cell y (case-insensitively) to
true; and the specification's sample table holds for the three-element rule:
true, 1, yes, TRUE, Yes coerce to true, while the empty string, no, 0,
false, maybe coerce to false. -/
theorem C2_bool_coercion_amended :
    (∀ s, filtered_df_bool s = spec_bool s) ∧
    (∀ s, audit_bool s = spec_bool s) ∧
    (∀ s, import_csv_bool s = (spec_bool s || pyLower s == "y")) ∧
    spec_bool "true" = true ∧ spec_bool "1" = true ∧ spec_bool "yes" = true ∧
    spec_bool "TRUE" = true ∧ spec_bool "Yes" = true ∧
    spec_bool "" = false ∧ spec_bool "no" = false ∧ spec_bool "0" = false ∧
    spec_bool "false" = false ∧ spec_bool "maybe" = false := by
  refine ⟨fun s => rfl, fun s => rfl, fun s => ?_, by decide, by decide, by decide,
    by decide, by decide, by decide, by decide, by decide, by decide, by decide⟩
  simp only [import_csv_bool, spec_bool]
  ac_rfl

/-- The header lookup key of `_normalize_headers`: strip, lowercase, then
delete every space and underscore. -/
def headerKey (col : String) : String :=
  ⟨(pyLower (pyStrip col)).data.filter (fun c => c ≠ ' ' && c ≠ '_')⟩

/-- `HEADER_ALIASES` from `logger_tab.py`. -/
def HEADER_ALIASES : List (String × String) :=
  [("genus", "Genus"), ("species", "Species"), ("commonname", "Common Name"),
   ("common_name", "Common Name"), ("type", "Type"), ("group", "Group"),
   ("family", "Family")]

/-- `HEADER_ALIASES` from `species_db.py`: no type and no group entries. -/
def SPECIES_DB_HEADER_ALIASES : List (String × String) :=
  [("genus", "Genus"), ("species", "Species"), ("commonname", "Common Name"),
   ("common_name", "Common Name"), ("family", "Family")]

/-- The per-column renaming rule of `_normalize_headers` in `logger_tab.py`:
alias lookup on the key, else the stripped original name. -/
def _normalize_header (col : String) : String :=
  (HEADER_ALIASES.lookup (headerKey col)).getD (pyStrip col)

/-- The per-column renaming rule of `_normalize_headers` in `species_db.py`. -/
def species_db_normalize_header (col : String) : String :=
  (SPECIES_DB_HEADER_ALIASES.lookup (headerKey col)).getD (pyStrip col)

/-- A header key never contains an underscore, so the dictionary entry for
the key common underscore name is unreachable. -/
theorem headerKey_no_underscore (col : String) : headerKey col ≠ "common_name" := by
  intro h
  have hmem : '_' ∈ (headerKey col).data := by rw [h]; decide
  unfold headerKey at hmem
  rw [List.mem_filter] at hmem
  exact absurd hmem.2 (by decide)

/-- Claim C3, counterexample.  The column name TYPE normalizes to the key type,
which the claim says is renamed to Type in every place headers are
normalized; `species_db.py`'s normalizer has no type alias and keeps TYPE
unchanged (while `logger_tab.py`'s does rename it). -/
theorem C3_counterexample :
    headerKey "TYPE" = "type" ∧
    species_db_normalize_header "TYPE" = "TYPE" ∧
    _normalize_header "TYPE" = "Type" ∧
    species_db_normalize_header "TYPE" ≠ "Type" :=
  ⟨by decide, by decide, by decide, by decide⟩

/-- Claim C3 (amended): header normalization computes the key by trimming,
lowercasing and deleting spaces and underscores; in `logger_tab.py` the keys
genus, species, commonname, type, group, family rename to the canonical
forms, any other key keeps the trimmed original name; in `species_db.py`
only genus, species, commonname, family rename (type and group are not
aliases there and keep the trimmed original name).  Mixed
case/spacing/underscore variants of Common Name normalize to exactly
Common Name in both places. -/
theorem C3_header_normalization_amended :
    (∀ col, headerKey col = "genus" →
      _normalize_header col = "Genus" ∧ species_db_normalize_header col = "Genus") ∧
    (∀ col, headerKey col = "species" →
      _normalize_header col = "Species" ∧ species_db_normalize_header col = "Species") ∧
    (∀ col, headerKey col = "commonname" →
      _normalize_header col = "Common Name" ∧
        species_db_normalize_header col = "Common Name") ∧
    (∀ col, headerKey col = "family" →
      _normalize_header col = "Family" ∧ species_db_normalize_header col = "Family") ∧
    (∀ col, headerKey col = "type" →
      _normalize_header col = "Type" ∧ species_db_normalize_header col = pyStrip col) ∧
    (∀ col, headerKey col = "group" →
      _normalize_header col = "Group" ∧ species_db_normalize_header col = pyStrip col) ∧
    (∀ col, headerKey col ∉
        (["genus", "species", "commonname", "type", "group", "family"] : List String) →
      _normalize_header col = pyStrip col ∧
        species_db_normalize_header col = pyStrip col) ∧
    _normalize_header "Common_Name" = "Common Name" ∧
    _normalize_header "COMMONNAME" = "Common Name" ∧
    _normalize_header " common name " = "Common Name" ∧
    species_db_normalize_header "Common_Name" = "Common Name" ∧
    species_db_normalize_header "COMMONNAME" = "Common Name" ∧
    species_db_normalize_header " common name " = "Common Name" := by
  refine ⟨?_, ?_, ?_, ?_, ?_, ?_, ?_, by decide, by decide, by decide, by decide,
    by decide, by decide⟩
  · intro col h
    unfold _normalize_header species_db_normalize_header
    rw [h]; exact ⟨rfl, rfl⟩
  · intro col h
    unfold _normalize_header species_db_normalize_header
    rw [h]; exact ⟨rfl, rfl⟩
  · intro col h
    unfold _normalize_header species_db_normalize_header
    rw [h]; exact ⟨rfl, rfl⟩
  · intro col h
    unfold _normalize_header species_db_normalize_header
    rw [h]; exact ⟨rfl, rfl⟩
  · intro col h
    unfold _normalize_header species_db_normalize_header
    rw [h]; exact ⟨rfl, rfl⟩
  · intro col h
    unfold _normalize_header species_db_normalize_header
    rw [h]; exact ⟨rfl, rfl⟩
  · intro col h
    simp only [List.mem_cons, List.mem_singleton, not_or] at h
    obtain ⟨h1, h2, h3, h4, h5, h6, -⟩ := h
    have h7 := headerKey_no_underscore col
    unfold _normalize_header species_db_normalize_header HEADER_ALIASES
      SPECIES_DB_HEADER_ALIASES
    simp [List.lookup, beq_eq_false_iff_ne.mpr h1, beq_eq_false_iff_ne.mpr h2,
      beq_eq_false_iff_ne.mpr h3, beq_eq_false_iff_ne.mpr h4,
      beq_eq_false_iff_ne.mpr h5, beq_eq_false_iff_ne.mpr h6,
      beq_eq_false_iff_ne.mpr h7]

/-- Claim C3, witness: an instance of the amended normalization theorem at a
concrete column name with key group: renamed by the logger normalizer, kept
(trimmed) by the species-db normalizer. -/
theorem C3_witness :
    _normalize_header " Group_" = "Group" ∧
      species_db_normalize_header " Group_" = pyStrip " Group_" :=
  C3_header_normalization_amended.2.2.2.2.2.1 " Group_" (by decide)

/-- One reference-species record, as built by `load_species_aliases` in
`logger_tab.py`. -/
structure SpeciesRec where
  genus : String
  species : String
  commonName : String
  rtype : String
  rgroup : String
  family : String
deriving DecidableEq, Repr

/-- The full display string genus species parenthesized-common-name used by
the resolver's fallback scan. -/
def displayFull (rec : SpeciesRec) : String :=
  rec.genus ++ " " ++ rec.species ++ " (" ++ rec.commonName ++ ")"

/-- Python substring containment (the in operator on strings). -/
def strContains (hay needle : String) : Bool :=
  decide (needle.data <:+: hay.data)

/-- Helper for whitespace splitting; the accumulator holds the current word
reversed. -/
def splitWsGo : List Char → List Char → List String
  | acc, [] => if acc.isEmpty then [] else [⟨acc.reverse⟩]
  | acc, c :: rest =>
    if isPySpace c then
      if acc.isEmpty then splitWsGo [] rest
      else ⟨acc.reverse⟩ :: splitWsGo [] rest
    else splitWsGo (c :: acc) rest

/-- Python `str.split()` with no argument: split on whitespace runs,
producing no empty words. -/
def pySplit (s : String) : List String :=
  splitWsGo [] s.data

/-- The token list the resolver's fallback uses: split the stripped,
lowercased text on whitespace and keep the truthy (non-empty) words. -/
def tokensOf (text : String) : List String :=
  (pySplit (pyLower (pyStrip text))).filter (fun x => x != "")

/-- `resolve_species` from `logger_tab.py`: empty input resolves to none;
else try the trimmed text in the alias map, then its lowercase, then scan
`records` in order for the first whose lowercased full display string
contains every token of the lowercased input as a substring. -/
def resolve_species (text : String) (alias_to_rec : List (String × SpeciesRec))
    (records : List SpeciesRec) : Option SpeciesRec :=
  if text = "" then none
  else
    let t := pyStrip text
    match alias_to_rec.lookup t with
    | some rec => some rec
    | none =>
      match alias_to_rec.lookup (pyLower t) with
      | some rec => some rec
      | none =>
        let toks := (pySplit (pyLower t)).filter (fun x => x != "")
        records.find? (fun rec =>
          toks.all (fun tok => strContains (pyLower (displayFull rec)) tok))

/-- `List.all` only depends on the multiset of elements. -/
theorem all_eq_of_perm {α : Type} {l1 l2 : List α} (h : l1.Perm l2)
    (p : α → Bool) : l1.all p = l2.all p := by
  induction h with
  | nil => rfl
  | cons a h ih => simp [List.all_cons, ih]
  | swap a b l => simp [List.all_cons, Bool.and_left_comm]
  | trans h1 h2 ih1 ih2 => rw [ih1, ih2]

/-- Claim C4: `resolve_species` resolves in three ordered steps — an exact alias
match on the trimmed text wins outright, then the lowercased trimmed text,
and only when both lookups miss does the token fallback run, returning the
first record in stored order whose lowercased display string contains every
token as a substring; consequently, permuting the tokens of the input does
not change the fallback's result. -/
theorem C4_resolve_species :
    (∀ text m records rec, text ≠ "" →
      List.lookup (pyStrip text) m = some rec →
      resolve_species text m records = some rec) ∧
    (∀ text m records rec, text ≠ "" →
      List.lookup (pyStrip text) m = none →
      List.lookup (pyLower (pyStrip text)) m = some rec →
      resolve_species text m records = some rec) ∧
    (∀ text m records, text ≠ "" →
      List.lookup (pyStrip text) m = none →
      List.lookup (pyLower (pyStrip text)) m = none →
      resolve_species text m records =
        records.find? (fun rec =>
          (tokensOf text).all (fun tok => strContains (pyLower (displayFull rec)) tok))) ∧
    (∀ t1 t2 m records, t1 ≠ "" → t2 ≠ "" →
      List.lookup (pyStrip t1) m = none →
      List.lookup (pyLower (pyStrip t1)) m = none →
      List.lookup (pyStrip t2) m = none →
      List.lookup (pyLower (pyStrip t2)) m = none →
      (tokensOf t1).Perm (tokensOf t2) →
      resolve_species t1 m records = resolve_species t2 m records) := by
  have step3 : ∀ (text : String) m (records : List SpeciesRec), text ≠ "" →
      List.lookup (pyStrip text) m = none →
      List.lookup (pyLower (pyStrip text)) m = none →
      resolve_species text m records =
        records.find? (fun rec =>
          (tokensOf text).all (fun tok => strContains (pyLower (displayFull rec)) tok)) := by
    intro text m records hne hl1 hl2
    unfold resolve_species
    rw [if_neg hne]
    simp only [hl1, hl2]
    rfl
  refine ⟨?_, ?_, step3, ?_⟩
  · intro text m records rec hne hl
    unfold resolve_species
    rw [if_neg hne]
    simp only [hl]
  · intro text m records rec hne hl1 hl2
    unfold resolve_species
    rw [if_neg hne]
    simp only [hl1, hl2]
  · intro t1 t2 m records hne1 hne2 ha1 ha2 hb1 hb2 hperm
    rw [step3 t1 m records hne1 ha1 ha2, step3 t2 m records hne2 hb1 hb2]
    have e : (fun rec : SpeciesRec =>
        (tokensOf t1).all (fun tok => strContains (pyLower (displayFull rec)) tok)) =
        fun rec : SpeciesRec =>
          (tokensOf t2).all (fun tok => strContains (pyLower (displayFull rec)) tok) :=
      funext fun rec => all_eq_of_perm hperm _
    rw [e]

/-- The Bur Oak sample record. -/
def burOak : SpeciesRec :=
  { genus := "Quercus", species := "macrocarpa", commonName := "Bur Oak",
    rtype := "Deciduous", rgroup := "White Oaks", family := "Fagaceae" }

/-- Claim C4, witness: the resolver theorem applied at concrete inputs — an exact
alias hit for Bur Oak, and the token fallback giving the same record for the
reordered inputs containing the tokens oak and bur. -/
theorem C4_witness :
    resolve_species "Bur Oak" [("Bur Oak", burOak)] [] = some burOak ∧
    resolve_species "oak bur" [] [burOak] = resolve_species "bur oak" [] [burOak] ∧
    resolve_species "bur oak" [] [burOak] = some burOak :=
  ⟨C4_resolve_species.1 "Bur Oak" [("Bur Oak", burOak)] [] burOak (by decide) (by decide),
   C4_resolve_species.2.2.2 "oak bur" "bur oak" [] [burOak] (by decide) (by decide)
     rfl rfl rfl rfl (by decide),
   by decide⟩

/-- Claim C10: a non-empty but all-whitespace input strips to the empty string, so
(provided the alias map has no empty key, which the alias builder never
produces) both map lookups miss, tokenization yields no tokens, and the
fallback's vacuous all-tokens test accepts the first record scanned:
`resolve_species` returns the head of a non-empty record list. -/
theorem C10_resolve_whitespace :
    ∀ (text : String) m (records : List SpeciesRec),
      text ≠ "" → (∀ c ∈ text.data, isPySpace c) →
      List.lookup "" m = none → records ≠ [] →
      resolve_species text m records = records.head? ∧ records.head?.isSome := by
  intro text m records hne hws hemp hrec
  have hstrip : pyStrip text = "" := by
    unfold pyStrip
    rw [List.dropWhile_eq_nil_iff.mpr hws]
    rfl
  unfold resolve_species
  rw [if_neg hne, hstrip]
  simp only [hemp]
  have hlow : pyLower "" = "" := rfl
  rw [hlow]
  simp only [hemp]
  cases records with
  | nil => exact absurd rfl hrec
  | cons r rs =>
    constructor
    · show List.find? _ (r :: rs) = some r
      rw [List.find?_cons]
      rfl
    · rfl

/-- Claim C10, witness: the whitespace-resolution theorem applied to a concrete
two-space input over the one-record list containing Bur Oak. -/
theorem C10_witness :
    resolve_species "  " [] [burOak] = [burOak].head? ∧
      ([burOak] : List SpeciesRec).head?.isSome :=
  C10_resolve_whitespace "  " [] [burOak] (by decide) (by decide) rfl (by decide)

/-- Boolean lexicographic comparison of character lists by code point,
modelling Python string comparison. -/
def charsLtB : List Char → List Char → Bool
  | [], [] => false
  | [], _ :: _ => true
  | _ :: _, [] => false
  | a :: as, b :: bs =>
    if a.toNat < b.toNat then true
    else if b.toNat < a.toNat then false
    else charsLtB as bs

/-- Character order is code-point order. -/
theorem char_lt_iff (a b : Char) : a < b ↔ a.toNat < b.toNat := Iff.rfl

/-- `charsLtB` decides the lexicographic order on character lists. -/
theorem charsLtB_iff : ∀ l1 l2 : List Char, charsLtB l1 l2 = true ↔ l1 < l2 := by
  intro l1
  induction l1 with
  | nil =>
    intro l2
    cases l2 with
    | nil =>
      simp only [charsLtB, Bool.false_eq_true, false_iff]
      intro h
      exact List.Lex.not_nil_right _ _ h
    | cons b bs =>
      simp only [charsLtB, true_iff]
      exact List.nil_lt_cons b bs
  | cons a as ih =>
    intro l2
    cases l2 with
    | nil =>
      simp only [charsLtB, Bool.false_eq_true, false_iff]
      intro h
      exact List.Lex.not_nil_right _ _ h
    | cons b bs =>
      simp only [charsLtB]
      by_cases hab : a.toNat < b.toNat
      · simp only [hab, if_true, true_iff]
        exact List.Lex.rel ((char_lt_iff a b).mpr hab)
      · by_cases hba : b.toNat < a.toNat
        · simp only [hab, hba, if_false, if_true, Bool.false_eq_true, false_iff]
          intro h
          cases h with
          | rel h' => exact hab ((char_lt_iff a b).mp h')
          | cons h' => exact Nat.lt_irrefl _ hba
        · have hab' : ¬ a < b := fun h => hab ((char_lt_iff a b).mp h)
          have hba' : ¬ b < a := fun h => hba ((char_lt_iff b a).mp h)
          have heq : a = b := le_antisymm (le_of_not_lt hba') (le_of_not_lt hab')
          subst heq
          simp only [hab, hba, if_false]
          show charsLtB as bs = true ↔ List.Lex (· < ·) (a :: as) (a :: bs)
          rw [List.Lex.cons_iff]
          exact ih bs

/-- Boolean string comparison: not strictly greater. -/
def strLeB (a b : String) : Bool := !(charsLtB b.data a.data)

/-- `strLeB` decides the standard string order. -/
theorem strLeB_iff (a b : String) : strLeB a b = true ↔ a ≤ b := by
  constructor
  · intro h
    rw [← not_lt]
    intro hlt
    rw [String.lt_iff_toList_lt] at hlt
    have h2 := (charsLtB_iff b.data a.data).mpr hlt
    simp [strLeB, h2] at h
  · intro h
    cases hc : charsLtB b.data a.data
    · simp [strLeB, hc]
    · exact absurd (String.lt_iff_toList_lt.mpr ((charsLtB_iff _ _).mp hc)) (not_lt.mpr h)

instance strLeB_total : IsTotal String (fun a b => strLeB a b = true) :=
  ⟨fun a b => by
    rcases le_total a b with h | h
    · exact Or.inl ((strLeB_iff a b).mpr h)
    · exact Or.inr ((strLeB_iff b a).mpr h)⟩

instance strLeB_trans : IsTrans String (fun a b => strLeB a b = true) :=
  ⟨fun a b c hab hbc =>
    (strLeB_iff a c).mpr (le_trans ((strLeB_iff a b).mp hab) ((strLeB_iff b c).mp hbc))⟩

/-- Python `sorted` on distinct strings, as used for the audit filter
lists: stable insertion sort under code-point order. -/
def pySortStrings (l : List String) : List String :=
  List.insertionSort (fun a b => strLeB a b = true) l

/-- One raw log record as `compute_audit` receives it: the five grouping
cells plus the six boolean-ish cells as raw strings (the coercion to Bool
happens inside `compute_audit`). -/
structure ARec where
  genus : String
  species : String
  commonName : String
  rtype : String
  rgroup : String
  hasLeaf : String
  hasBark : String
  hasTree : String
  hasOther : String
  scanned : String
  archived : String
deriving DecidableEq, Repr

/-- The five-column grouping key of the audit. -/
abbrev AKey := String × String × String × String × String

/-- Grouping key of a record. -/
def akey (r : ARec) : AKey := (r.genus, r.species, r.commonName, r.rtype, r.rgroup)

/-- Lexicographic comparison of grouping keys (pandas sorts group keys). -/
def keyLeB (a b : AKey) : Bool :=
  if a.1 != b.1 then charsLtB a.1.data b.1.data
  else if a.2.1 != b.2.1 then charsLtB a.2.1.data b.2.1.data
  else if a.2.2.1 != b.2.2.1 then charsLtB a.2.2.1.data b.2.2.1.data
  else if a.2.2.2.1 != b.2.2.2.1 then charsLtB a.2.2.2.1.data b.2.2.2.1.data
  else strLeB a.2.2.2.2 b.2.2.2.2

/-- Sort the distinct grouping keys as pandas `groupby` does. -/
def sortKeys (ks : List AKey) : List AKey :=
  List.insertionSort (fun a b => keyLeB a b = true) ks

/-- One derived audit row (`TABLE_COLUMNS` of `audit_tab.py`): grouping
keys, entries count, six per-group true counts, and the joined missing
text. -/
structure AuditRow where
  genus : String
  species : String
  commonName : String
  rtype : String
  rgroup : String
  entries : Nat
  leaf : Nat
  bark : Nat
  tree : Nat
  other : Nat
  scannedCount : Nat
  archivedCount : Nat
  missing : String
deriving DecidableEq, Repr

/-- Count of records in a group whose given cell coerces to true. -/
def boolCount (grp : List ARec) (f : ARec → String) : Nat :=
  (grp.filter (fun r => audit_bool (f r))).length

/-- The audit row built for one group (the loop body of `compute_audit`). -/
def auditRowFor (k : AKey) (grp : List ARec) : AuditRow :=
  let leafCt := boolCount grp (fun r => r.hasLeaf)
  let barkCt := boolCount grp (fun r => r.hasBark)
  let treeCt := boolCount grp (fun r => r.hasTree)
  let otherCt := boolCount grp (fun r => r.hasOther)
  let missingList :=
    (if leafCt = 0 then ["Leaf"] else []) ++ (if barkCt = 0 then ["Bark"] else []) ++
      (if treeCt = 0 then ["Tree"] else []) ++ (if otherCt = 0 then ["Other"] else [])
  { genus := k.1, species := k.2.1, commonName := k.2.2.1,
    rtype := k.2.2.2.1, rgroup := k.2.2.2.2,
    entries := grp.length,
    leaf := leafCt, bark := barkCt, tree := treeCt, other := otherCt,
    scannedCount := boolCount grp (fun r => r.scanned),
    archivedCount := boolCount grp (fun r => r.archived),
    missing := String.intercalate ", " missingList }

/-- The sorted distinct truthy values of one column (the filter-list
computation at the end of `compute_audit`). -/
def distinctSortedNonEmpty (vals : List String) : List String :=
  pySortStrings ((vals.dedup).filter (fun t => pyStrip t != ""))

/-- `compute_audit` from `audit_tab.py`: empty input yields empty outputs;
otherwise group the records by the exact five-tuple key (pandas sorts the
distinct keys), build one audit row per group, and also return the sorted
distinct non-empty Type and Group values over all input records. -/
def compute_audit (records : List ARec) :
    List AuditRow × List String × List String :=
  if records = [] then ([], [], [])
  else
    let keys := sortKeys ((records.map akey).dedup)
    (keys.map (fun k => auditRowFor k (records.filter (fun r => akey r == k))),
     distinctSortedNonEmpty (records.map (fun r => r.rtype)),
     distinctSortedNonEmpty (records.map (fun r => r.rgroup)))

/-- Grouping key read back off an audit row. -/
def rkey (row : AuditRow) : AKey :=
  (row.genus, row.species, row.commonName, row.rtype, row.rgroup)

/-- The if-chain missing list of the source equals the filtered-subsequence
formulation of the specification. -/
theorem missing_join_eq (a b c d : Nat) :
    String.intercalate ", "
        ((if a = 0 then ["Leaf"] else []) ++ (if b = 0 then ["Bark"] else []) ++
          (if c = 0 then ["Tree"] else []) ++ (if d = 0 then ["Other"] else []))
      = String.intercalate ", "
        ((([("Leaf", a), ("Bark", b), ("Tree", c), ("Other", d)] :
            List (String × Nat)).filter (fun p => p.2 == 0)).map Prod.fst) := by
  have e : ∀ n : Nat, ¬ n = 0 → (n == 0) = false := fun n h => beq_eq_false_iff_ne.mpr h
  by_cases ha : a = 0 <;> by_cases hb : b = 0 <;> by_cases hc : c = 0 <;>
    by_cases hd : d = 0 <;>
    simp [ha, hb, hc, hd, e a, e b, e c, e d, List.filter]

/-- Claim C5: `compute_audit` groups by the exact five-tuple key (empty strings
are valid key values), each audit row's entries field is the number of input
records with that exact key, each coverage field counts the records of the
group whose cell coerces to true, the missing text is the join of the fixed
order subsequence of Leaf, Bark, Tree, Other whose count is zero; there is
exactly one row per distinct key; the Type and Group filter lists contain
exactly the non-empty values of those columns over all input records,
sorted and without duplicates; and empty input yields empty outputs. -/
theorem C5_compute_audit :
    compute_audit [] = ([], [], []) ∧
    (∀ records row, row ∈ (compute_audit records).1 →
      (let grp := records.filter (fun r => akey r == rkey row)
       row.entries = grp.length ∧
       row.leaf = (grp.filter (fun r => audit_bool r.hasLeaf)).length ∧
       row.bark = (grp.filter (fun r => audit_bool r.hasBark)).length ∧
       row.tree = (grp.filter (fun r => audit_bool r.hasTree)).length ∧
       row.other = (grp.filter (fun r => audit_bool r.hasOther)).length ∧
       row.missing = String.intercalate ", "
         ((([("Leaf", row.leaf), ("Bark", row.bark), ("Tree", row.tree),
             ("Other", row.other)] :
             List (String × Nat)).filter (fun p => p.2 == 0)).map Prod.fst))) ∧
    (∀ records, ((compute_audit records).1.map rkey).Perm ((records.map akey).dedup)) ∧
    (∀ records t, t ∈ (compute_audit records).2.1 ↔
      (t ∈ records.map (fun r => r.rtype) ∧ pyStrip t ≠ "")) ∧
    (∀ records, List.Sorted (· ≤ ·) ((compute_audit records).2.1) ∧
      ((compute_audit records).2.1).Nodup) ∧
    (∀ records g, g ∈ (compute_audit records).2.2 ↔
      (g ∈ records.map (fun r => r.rgroup) ∧ pyStrip g ≠ "")) ∧
    (∀ records, List.Sorted (· ≤ ·) ((compute_audit records).2.2) ∧
      ((compute_audit records).2.2).Nodup) := by
  refine ⟨rfl, ?_, ?_, ?_, ?_, ?_, ?_⟩
  · intro records row hmem
    by_cases h : records = []
    · subst h
      simp [compute_audit] at hmem
    · simp only [compute_audit, if_neg h] at hmem
      rw [List.mem_map] at hmem
      obtain ⟨k, hk, hrow⟩ := hmem
      subst hrow
      exact ⟨rfl, rfl, rfl, rfl, rfl, missing_join_eq _ _ _ _⟩
  · intro records
    by_cases h : records = []
    · subst h
      simp [compute_audit]
    · simp only [compute_audit, if_neg h]
      rw [List.map_map]
      have e : rkey ∘ (fun k => auditRowFor k (records.filter (fun r => akey r == k)))
          = id := funext fun k => rfl
      rw [e, List.map_id]
      exact List.perm_insertionSort _ _
  · intro records t
    by_cases h : records = []
    · subst h
      simp [compute_audit]
    · simp only [compute_audit, if_neg h]
      show t ∈ distinctSortedNonEmpty (records.map (fun r => r.rtype)) ↔ _
      unfold distinctSortedNonEmpty pySortStrings
      rw [List.Perm.mem_iff (List.perm_insertionSort _ _), List.mem_filter,
        List.mem_dedup]
      simp [bne_iff_ne]
  · intro records
    by_cases h : records = []
    · subst h
      constructor
      · simp [compute_audit]
      · simp [compute_audit]
    · simp only [compute_audit, if_neg h]
      constructor
      · show List.Sorted (· ≤ ·) (distinctSortedNonEmpty _)
        unfold distinctSortedNonEmpty pySortStrings
        exact (List.sorted_insertionSort _ _).imp (fun hab => (strLeB_iff _ _).mp hab)
      · show (distinctSortedNonEmpty _).Nodup
        unfold distinctSortedNonEmpty pySortStrings
        rw [List.Perm.nodup_iff (List.perm_insertionSort _ _)]
        exact (List.nodup_dedup _).filter _
  · intro records g
    by_cases h : records = []
    · subst h
      simp [compute_audit]
    · simp only [compute_audit, if_neg h]
      show g ∈ distinctSortedNonEmpty (records.map (fun r => r.rgroup)) ↔ _
      unfold distinctSortedNonEmpty pySortStrings
      rw [List.Perm.mem_iff (List.perm_insertionSort _ _), List.mem_filter,
        List.mem_dedup]
      simp [bne_iff_ne]
  · intro records
    by_cases h : records = []
    · subst h
      constructor
      · simp [compute_audit]
      · simp [compute_audit]
    · simp only [compute_audit, if_neg h]
      constructor
      · show List.Sorted (· ≤ ·) (distinctSortedNonEmpty _)
        unfold distinctSortedNonEmpty pySortStrings
        exact (List.sorted_insertionSort _ _).imp (fun hab => (strLeB_iff _ _).mp hab)
      · show (distinctSortedNonEmpty _).Nodup
        unfold distinctSortedNonEmpty pySortStrings
        rw [List.Perm.nodup_iff (List.perm_insertionSort _ _)]
        exact (List.nodup_dedup _).filter _

/-- Two log records with the same grouping key, one with leaf coverage and
one with other coverage (the specification's audit-grouping example shape). -/
def auditSample : List ARec :=
  [{ genus := "Fagus", species := "grandifolia", commonName := "American Beech",
     rtype := "Deciduous", rgroup := "Beeches",
     hasLeaf := "True", hasBark := "false", hasTree := "", hasOther := "no",
     scanned := "yes", archived := "0" },
   { genus := "Fagus", species := "grandifolia", commonName := "American Beech",
     rtype := "Deciduous", rgroup := "Beeches",
     hasLeaf := "false", hasBark := "False", hasTree := "maybe", hasOther := "1",
     scanned := "TRUE", archived := "" }]

/-- The single audit row produced for `auditSample`. -/
def auditExampleRow : AuditRow :=
  { genus := "Fagus", species := "grandifolia", commonName := "American Beech",
    rtype := "Deciduous", rgroup := "Beeches",
    entries := 2, leaf := 1, bark := 0, tree := 0, other := 1,
    scannedCount := 2, archivedCount := 0, missing := "Bark, Tree" }

/-- Claim C5, witness: the audit theorem applied to the concrete two-record group,
whose single audit row has two entries, one leaf, zero bark and the missing
text joining exactly the zero-count categories. -/
theorem C5_witness :
    (let grp := auditSample.filter (fun r => akey r == rkey auditExampleRow)
     auditExampleRow.entries = grp.length ∧
     auditExampleRow.leaf = (grp.filter (fun r => audit_bool r.hasLeaf)).length ∧
     auditExampleRow.bark = (grp.filter (fun r => audit_bool r.hasBark)).length ∧
     auditExampleRow.tree = (grp.filter (fun r => audit_bool r.hasTree)).length ∧
     auditExampleRow.other = (grp.filter (fun r => audit_bool r.hasOther)).length ∧
     auditExampleRow.missing = String.intercalate ", "
       ((([("Leaf", auditExampleRow.leaf), ("Bark", auditExampleRow.bark),
           ("Tree", auditExampleRow.tree), ("Other", auditExampleRow.other)] :
           List (String × Nat)).filter (fun p => p.2 == 0)).map Prod.fst)) :=
  C5_compute_audit.2.1 auditSample auditExampleRow (by decide)

/-- Outcome of a save attempt: saved with the written id, the duplicate
record-id error dialog, or the species-required warning. -/
inductive SaveOutcome where
  | saved (rid : String)
  | duplicateError
  | speciesRequired
deriving DecidableEq, Repr

/-- Result of `save_new`: the log as left on disk and the reported outcome
(on any non-saved outcome the log is not rewritten). -/
structure SaveResult where
  log : List LogRow
  outcome : SaveOutcome
deriving DecidableEq, Repr

/-- `save_new` from `logger_tab.py`, with the log rows passed explicitly:
resolve the species text (warn and do not write when unresolvable), build
the row with a fresh record id, and if that id already exists regenerate it
once; when the regenerated id also exists report the duplicate error and do
not write, otherwise append the row and rewrite the log. -/
def save_new (text : String) (alias_to_rec : List (String × SpeciesRec))
    (records : List SpeciesRec) (rows : List LogRow)
    (timestamp photoPath notes : String) (hl hb ht ho sc ar : Bool) : SaveResult :=
  match resolve_species text alias_to_rec records with
  | none => ⟨rows, .speciesRequired⟩
  | some rec =>
    let rid := next_record_id rec.genus rec.species rows
    let row : LogRow :=
      { timestamp := timestamp, recordId := rid, genus := rec.genus,
        species := rec.species, commonName := rec.commonName,
        rtype := rec.rtype, rgroup := rec.rgroup,
        photoPath := pyStrip photoPath,
        hasLeaf := hl, hasBark := hb, hasTree := ht, hasOther := ho,
        scanned := sc, archived := ar, notes := pyStrip notes }
    if rows.any (fun r => r.recordId == rid) then
      let rid2 := next_record_id rec.genus rec.species rows
      if rows.any (fun r => r.recordId == rid2) then ⟨rows, .duplicateError⟩
      else ⟨rows ++ [{ row with recordId := rid2 }], .saved rid2⟩
    else ⟨rows ++ [row], .saved rid⟩

/-- Claim C6: when the generated record id already exists in the log
(case-sensitive exact match), the single silent retry regenerates the id
from the same unchanged rows, so it collides again, and `save_new` reports
the duplicate-record-id error with the log left exactly unchanged — nothing
written, dropped or overwritten; with no collision the row is appended. -/
theorem C6_save_new_collision :
    ∀ text m records rows timestamp photoPath notes hl hb ht ho sc ar rec,
      resolve_species text m records = some rec →
      (rows.any (fun r => r.recordId == next_record_id rec.genus rec.species rows)
        = true →
        save_new text m records rows timestamp photoPath notes hl hb ht ho sc ar
          = ⟨rows, .duplicateError⟩) ∧
      (rows.any (fun r => r.recordId == next_record_id rec.genus rec.species rows)
        = false →
        ∃ row, save_new text m records rows timestamp photoPath notes hl hb ht ho sc ar
            = ⟨rows ++ [row], .saved (next_record_id rec.genus rec.species rows)⟩ ∧
          row.recordId = next_record_id rec.genus rec.species rows) := by
  intro text m records rows timestamp photoPath notes hl hb ht ho sc ar rec hres
  constructor
  · intro hcol
    unfold save_new
    rw [hres]
    simp only [hcol, if_true]
  · intro hnocol
    unfold save_new
    rw [hres]
    simp only [hnocol, Bool.false_eq_true, if_false]
    exact ⟨_, rfl, rfl⟩

/-- The Fagus grandifolia reference record. -/
def fagusRec : SpeciesRec :=
  { genus := "Fagus", species := "grandifolia", commonName := "American Beech",
    rtype := "Deciduous", rgroup := "Beeches", family := "Fagaceae" }

/-- A log whose next Fagus grandifolia id (02) is already taken by a row of
a different genus, so the id check collides and the deterministic retry
collides again. -/
def collisionRows : List LogRow :=
  [fagusRow "fagus_grandifolia_01",
   { (fagusRow "fagus_grandifolia_02") with genus := "Quercus" }]

/-- Claim C6, witness: the collision theorem applied to the concrete collision
log — the save reports the duplicate error and leaves the log unchanged. -/
theorem C6_witness :
    save_new "Fagus grandifolia" [("Fagus grandifolia", fagusRec)] [] collisionRows
        "2024-02-02 09:00" "" "" true false false false false false
      = ⟨collisionRows, .duplicateError⟩ :=
  (C6_save_new_collision "Fagus grandifolia" [("Fagus grandifolia", fagusRec)] []
      collisionRows "2024-02-02 09:00" "" "" true false false false false false
      fagusRec (by decide)).1 (by decide)

/-- The editable fields of the edit dialog: the seven text entries and the
six check buttons — the Timestamp and Record ID are not among them. -/
structure EditFields where
  genus : String
  species : String
  commonName : String
  rtype : String
  rgroup : String
  photoPath : String
  notes : String
  hasLeaf : Bool
  hasBark : Bool
  hasTree : Bool
  hasOther : Bool
  scanned : Bool
  archived : Bool
deriving DecidableEq, Repr

/-- Applying the edit dialog's fields to one matched row: each text field is
written stripped, each boolean from its check button; timestamp and record
id are untouched. -/
def applyEdit (r : LogRow) (f : EditFields) : LogRow :=
  { r with
    genus := pyStrip f.genus,
    species := pyStrip f.species,
    commonName := pyStrip f.commonName,
    rtype := pyStrip f.rtype,
    rgroup := pyStrip f.rgroup,
    photoPath := pyStrip f.photoPath,
    notes := pyStrip f.notes,
    hasLeaf := f.hasLeaf,
    hasBark := f.hasBark,
    hasTree := f.hasTree,
    hasOther := f.hasOther,
    scanned := f.scanned,
    archived := f.archived }

/-- `save_edit` from `logger_tab.py`: rows matched by the composite
(Timestamp, Record ID) key receive the dialog's fields; when no row matches
the stale-row error is reported and nothing is written. -/
def save_edit (rows : List LogRow) (tsKey ridKey : String) (f : EditFields) :
    Option (List LogRow) :=
  if rows.any (fun r => r.timestamp == tsKey && r.recordId == ridKey) then
    some (rows.map (fun r =>
      if r.timestamp == tsKey && r.recordId == ridKey then applyEdit r f else r))
  else none

/-- Claim C9: a successful edit never changes any row's Timestamp or Record ID —
the written log's (Timestamp, Record ID) column pair equals the original
log's, row for row; in particular the edited row keeps both key fields. -/
theorem C9_save_edit_preserves_keys :
    ∀ rows tsKey ridKey f out, save_edit rows tsKey ridKey f = some out →
      out.map (fun r => (r.timestamp, r.recordId))
        = rows.map (fun r => (r.timestamp, r.recordId)) := by
  intro rows tsKey ridKey f out h
  unfold save_edit at h
  split at h
  · rw [Option.some.injEq] at h
    subst h
    rw [List.map_map]
    apply List.map_congr_left
    intro r _
    by_cases hr : (r.timestamp == tsKey && r.recordId == ridKey) = true
    · simp [hr, applyEdit, Function.comp]
    · simp [hr, Function.comp]
  · exact absurd h (by simp)

/-- A concrete edit changing every editable field. -/
def sampleEdit : EditFields :=
  { genus := " Quercus ", species := "alba", commonName := "White Oak",
    rtype := "Deciduous", rgroup := "White Oaks", photoPath := " p.jpg ",
    notes := " note ", hasLeaf := true, hasBark := true, hasTree := false,
    hasOther := false, scanned := true, archived := false }

/-- Claim C9, witness: the key-preservation theorem applied to a concrete
one-row log and the concrete edit — the (Timestamp, Record ID) pairs of the
result equal those of the original log. -/
theorem C9_witness :
    ([fagusRow "fagus_grandifolia_01"].map (fun r =>
        if r.timestamp == "2024-01-01 10:00" && r.recordId == "fagus_grandifolia_01"
        then applyEdit r sampleEdit else r)).map (fun r => (r.timestamp, r.recordId))
      = [fagusRow "fagus_grandifolia_01"].map (fun r => (r.timestamp, r.recordId)) :=
  C9_save_edit_preserves_keys [fagusRow "fagus_grandifolia_01"] "2024-01-01 10:00"
    "fagus_grandifolia_01" sampleEdit _ (by decide)

/-- One table cell: a string cell or a boolean backfill value. -/
inductive Cell where
  | str (s : String)
  | bool (b : Bool)
deriving DecidableEq, Repr

/-- One named column with its cells. -/
structure Col where
  name : String
  cells : List Cell
deriving DecidableEq, Repr

/-- A table is its list of columns. -/
abbrev Table := List Col

/-- `LOG_COLUMNS` from `logger_tab.py` (identical to the `needed` list of
`audit_tab.py`). -/
def LOG_COLUMNS : List String :=
  ["Timestamp", "Record ID", "Genus", "Species", "Common Name", "Type", "Group",
   "Photo Path", "Has Leaf", "Has Bark", "Has Tree", "Has Other",
   "Scanned", "Archived", "Notes"]

/-- `BOOL_COLUMNS` from `logger_tab.py` (identical to the boolean-default
set of `audit_tab.py`). -/
def BOOL_COLUMNS : List String :=
  ["Has Leaf", "Has Bark", "Has Tree", "Has Other", "Scanned", "Archived"]

/-- Row count of a table (length of its first column). -/
def nrows : Table → Nat
  | [] => 0
  | c :: _ => c.cells.length

/-- Column lookup by name. -/
def getCol (t : Table) (n : String) : Option Col :=
  t.find? (fun c => c.name == n)

/-- Backfill default per column: false for boolean columns, the empty
string otherwise. -/
def defaultCell (c : String) : Cell :=
  if BOOL_COLUMNS.contains c then .bool false else .str ""

/-- The backfill-then-select step shared by both `read_log_df` functions:
for every canonical column take the present column, else a column of
defaults; the result has exactly the canonical columns in canonical order
(extra columns are dropped). -/
def backfillSelect (t : Table) : Table :=
  LOG_COLUMNS.map (fun c =>
    match getCol t c with
    | some col => col
    | none => ⟨c, List.replicate (nrows t) (defaultCell c)⟩)

/-- The empty table with the canonical log schema. -/
def emptyLogTable : Table := LOG_COLUMNS.map (fun c => ⟨c, []⟩)

/-- `read_log_df` from `logger_tab.py`, with the raw read outcome passed
explicitly (`none` models any read exception, which the source replaces by
an empty frame with the canonical columns). -/
def read_log_df (readResult : Option Table) : Table :=
  backfillSelect (readResult.getD emptyLogTable)

/-- The frame `audit_tab.py`'s `read_log_df` substitutes on a read
exception: only the five plain classification columns, empty. -/
def auditFailureTable : Table :=
  ["Genus", "Species", "Common Name", "Type", "Group"].map (fun c => ⟨c, []⟩)

/-- `read_log_df` from `audit_tab.py`: same backfill-and-select over the
same fifteen columns with the same defaults, but a different substitute
frame on a read exception. -/
def audit_read_log_df (readResult : Option Table) : Table :=
  backfillSelect (readResult.getD auditFailureTable)

/-- Claim C7: both log readers always return exactly the fifteen canonical
columns in canonical order; any absent canonical column comes back filled
with the type-appropriate default (false for boolean columns, the empty
string otherwise) for every row; and on a read failure both return the
empty table with the canonical schema. -/
theorem C7_read_log_df :
    (∀ res, (read_log_df res).map (fun c => c.name) = LOG_COLUMNS) ∧
    (∀ t c, c ∈ LOG_COLUMNS → getCol t c = none →
      (⟨c, List.replicate (nrows t) (defaultCell c)⟩ : Col) ∈ read_log_df (some t)) ∧
    read_log_df none = emptyLogTable ∧
    (∀ res, (audit_read_log_df res).map (fun c => c.name) = LOG_COLUMNS) ∧
    (∀ t c, c ∈ LOG_COLUMNS → getCol t c = none →
      (⟨c, List.replicate (nrows t) (defaultCell c)⟩ : Col) ∈ audit_read_log_df (some t)) ∧
    audit_read_log_df none = emptyLogTable := by
  have names : ∀ d : Table, (backfillSelect d).map (fun c => c.name) = LOG_COLUMNS := by
    intro d
    unfold backfillSelect
    rw [List.map_map]
    conv_rhs => rw [← List.map_id LOG_COLUMNS]
    apply List.map_congr_left
    intro c _
    show (match getCol d c with
      | some col => col
      | none => ⟨c, List.replicate (nrows d) (defaultCell c)⟩).name = c
    cases hg : getCol d c with
    | none => rfl
    | some col =>
      have := List.find?_some hg
      simp only [beq_iff_eq] at this
      exact this
  have mems : ∀ (t : Table) c, c ∈ LOG_COLUMNS → getCol t c = none →
      (⟨c, List.replicate (nrows t) (defaultCell c)⟩ : Col) ∈ backfillSelect t := by
    intro t c hc hg
    unfold backfillSelect
    rw [List.mem_map]
    refine ⟨c, hc, ?_⟩
    rw [hg]
  exact ⟨fun res => names _, fun t c hc hg => mems t c hc hg, by decide,
    fun res => names _, fun t c hc hg => mems t c hc hg, by decide⟩

/-- Claim C7, witness: a one-column, one-row table lacking the Scanned and Notes
columns reads back with the boolean column Scanned backfilled with one
false cell and the text column Notes backfilled with one empty cell, in
both readers. -/
theorem C7_witness :
    (⟨"Scanned", List.replicate (nrows [⟨"Genus", [Cell.str "Quercus"]⟩])
        (defaultCell "Scanned")⟩ : Col)
      ∈ read_log_df (some [⟨"Genus", [Cell.str "Quercus"]⟩]) ∧
    (⟨"Notes", List.replicate (nrows [⟨"Genus", [Cell.str "Quercus"]⟩])
        (defaultCell "Notes")⟩ : Col)
      ∈ audit_read_log_df (some [⟨"Genus", [Cell.str "Quercus"]⟩]) :=
  ⟨C7_read_log_df.2.1 [⟨"Genus", [Cell.str "Quercus"]⟩] "Scanned" (by decide) (by decide),
   C7_read_log_df.2.2.2.2.1 [⟨"Genus", [Cell.str "Quercus"]⟩] "Notes" (by decide) (by decide)⟩

/-- A raw reference table: header names and rows of string cells. -/
structure RefTable where
  headers : List String
  rows : List (List String)
deriving DecidableEq, Repr

/-- Cell access by column label, with the empty string for a missing
optional column or a missing cell (pandas label access after the optional
columns are filled with empty strings). -/
def getCell (headers : List String) (row : List String) (name : String) : String :=
  match headers.findIdx? (fun h => h == name) with
  | some i => row.getD i ""
  | none => ""

/-- One reference row turned into a species record; rows with empty Genus
or Species (after stripping) are dropped. -/
def refRecordOf (headers : List String) (row : List String) : Option SpeciesRec :=
  let genus := pyStrip (getCell headers row "Genus")
  let species := pyStrip (getCell headers row "Species")
  if genus = "" || species = "" then none
  else some { genus := genus, species := species,
              commonName := pyStrip (getCell headers row "Common Name"),
              rtype := pyStrip (getCell headers row "Type"),
              rgroup := pyStrip (getCell headers row "Group"),
              family := pyStrip (getCell headers row "Family") }

/-- First-occurrence deduplication (deterministic stand-in for iterating a
Python set literal). -/
def dedupFirst (seen : List String) : List String → List String
  | [] => []
  | a :: rest =>
    if seen.contains a then dedupFirst seen rest
    else a :: dedupFirst (a :: seen) rest

/-- Python `dict.setdefault`: insert only when the key is absent. -/
def setdefault (m : List (String × SpeciesRec)) (k : String) (v : SpeciesRec) :
    List (String × SpeciesRec) :=
  if (m.lookup k).isSome then m else m ++ [(k, v)]

/-- The alias set of one record on the success path (display strings are
stripped there). -/
def aliasSetSuccess (rec : SpeciesRec) : List String :=
  let displayF := pyStrip (rec.genus ++ " " ++ rec.species ++ " (" ++ rec.commonName ++ ")")
  let displaySci := pyStrip (rec.genus ++ " " ++ rec.species)
  dedupFirst []
    [displayF, displaySci, rec.commonName, pyLower displaySci, pyLower rec.commonName]

/-- The alias set of one record on the fallback path (no stripping there). -/
def aliasSetFallback (rec : SpeciesRec) : List String :=
  let displayF := rec.genus ++ " " ++ rec.species ++ " (" ++ rec.commonName ++ ")"
  let displaySci := rec.genus ++ " " ++ rec.species
  dedupFirst []
    [displayF, displaySci, rec.commonName, pyLower displaySci, pyLower rec.commonName]

/-- Register one record's aliases: every truthy alias is appended to the
alias list and setdefault-inserted into the map. -/
def addAliases (st : List String × List (String × SpeciesRec)) (rec : SpeciesRec)
    (aliasSet : List String) : List String × List (String × SpeciesRec) :=
  aliasSet.foldl (fun st a =>
    if a = "" then st else (st.1 ++ [a], setdefault st.2 a rec)) st

/-- The hard-coded two-record fallback sample of `load_species_aliases`. -/
def fallbackRecords : List SpeciesRec :=
  [{ genus := "Quercus", species := "macrocarpa", rtype := "Deciduous",
     rgroup := "White Oaks", family := "Fagaceae", commonName := "Bur Oak" },
   { genus := "Carya", species := "cordiformis", rtype := "Deciduous",
     rgroup := "Hickories", family := "Juglandaceae", commonName := "Bitternut Hickory" }]

/-- Python `sorted` keyed on `str.lower`: stable insertion sort on the
lowercased values. -/
def pySortAliases (l : List String) : List String :=
  List.insertionSort (fun a b => strLeB (pyLower a) (pyLower b) = true) l

/-- The value produced by the except-branch of `load_species_aliases`: the
fallback records' aliases and map, with no records list. -/
def fallbackResult : List String × List (String × SpeciesRec) × List SpeciesRec :=
  let st := fallbackRecords.foldl (fun st rec => addAliases st rec (aliasSetFallback rec))
    ([], [])
  (pySortAliases (dedupFirst [] st.1), st.2, [])

/-- `load_species_aliases` from `logger_tab.py`, with the configured-path
check and the raw read outcome passed explicitly: on a missing path, an
unreadable file, or a table without Genus and Species columns after header
normalization, the fixed fallback is returned; otherwise records are built
from the rows with non-empty genus and species and their aliases
registered. -/
def load_species_aliases (pathOk : Bool) (readResult : Option RefTable) :
    List String × List (String × SpeciesRec) × List SpeciesRec :=
  if pathOk then
    match readResult with
    | none => fallbackResult
    | some tbl =>
      let headers := tbl.headers.map _normalize_header
      if headers.contains "Genus" && headers.contains "Species" then
        let records := tbl.rows.filterMap (refRecordOf headers)
        let st := records.foldl (fun st rec => addAliases st rec (aliasSetSuccess rec))
          ([], [])
        (pySortAliases (dedupFirst [] st.1), st.2, records)
      else fallbackResult
  else fallbackResult

/-- The Bitternut Hickory sample record. -/
def bitternutHickory : SpeciesRec :=
  { genus := "Carya", species := "cordiformis", commonName := "Bitternut Hickory",
    rtype := "Deciduous", rgroup := "Hickories", family := "Juglandaceae" }

/-- The alias list of the built-in fallback sample set, deduplicated and
sorted case-insensitively (relative order within a case-insensitive tie
follows the model's deterministic set order). -/
def sampleAliases : List String :=
  ["Bitternut Hickory", "bitternut hickory", "Bur Oak", "bur oak",
   "Carya cordiformis", "carya cordiformis",
   "Carya cordiformis (Bitternut Hickory)", "Quercus macrocarpa",
   "quercus macrocarpa", "Quercus macrocarpa (Bur Oak)"]

/-- The alias map of the built-in fallback sample set. -/
def sampleAliasMap : List (String × SpeciesRec) :=
  [("Quercus macrocarpa (Bur Oak)", burOak), ("Quercus macrocarpa", burOak),
   ("Bur Oak", burOak), ("quercus macrocarpa", burOak), ("bur oak", burOak),
   ("Carya cordiformis (Bitternut Hickory)", bitternutHickory),
   ("Carya cordiformis", bitternutHickory), ("Bitternut Hickory", bitternutHickory),
   ("carya cordiformis", bitternutHickory), ("bitternut hickory", bitternutHickory)]

/-- Claim C8: `load_species_aliases` never fails — whenever no reference database
path is set, or the reference file cannot be read, or the normalized table
lacks a Genus or Species column, it returns the fixed built-in two-record
sample set (Bur Oak and Bitternut Hickory) as the alias list and alias map
(the records list of the fallback is empty). -/
theorem C8_load_species_aliases :
    (∀ res, load_species_aliases false res = (sampleAliases, sampleAliasMap, [])) ∧
    load_species_aliases true none = (sampleAliases, sampleAliasMap, []) ∧
    (∀ tbl : RefTable,
      ((tbl.headers.map _normalize_header).contains "Genus" &&
        (tbl.headers.map _normalize_header).contains "Species") = false →
      load_species_aliases true (some tbl) = (sampleAliases, sampleAliasMap, [])) := by
  have hfb : fallbackResult = (sampleAliases, sampleAliasMap, []) := by decide
  refine ⟨fun res => hfb, hfb, ?_⟩
  intro tbl h
  show (if ((tbl.headers.map _normalize_header).contains "Genus" &&
      (tbl.headers.map _normalize_header).contains "Species") = true
    then _ else fallbackResult) = _
  rw [h]
  simp only [Bool.false_eq_true, if_false]
  exact hfb

/-- Claim C8, witness: the fallback theorem applied to a concrete readable table
whose single column Foo is neither Genus nor Species — the fallback sample
set is returned. -/
theorem C8_witness :
    load_species_aliases true (some ⟨["Foo"], []⟩) = (sampleAliases, sampleAliasMap, []) :=
  C8_load_species_aliases.2.2 ⟨["Foo"], []⟩ (by decide)

end IFML
